import Mathlib

/-!
Verification development for the WhatsApp chat-analyzer core
(transcript parser in FileUpload.tsx and analytics engine in ChatAnalysis.tsx).

The JavaScript source is shallowly embedded:
* strings are lists of characters (`List Char`); JavaScript `.length` on strings
  is the UTF-16 code-unit count, modeled by `jsLength`;
* the single-line record regular expression of `processWhatsAppFile` is embedded
  as a backtracking matcher (`matchWhatsApp`) that tries quantifier lengths in
  the greedy, leftmost order a JavaScript regex engine uses;
* JavaScript numbers are modeled by exact integer/rational arithmetic: every
  quantity the analyzer computes is an integer or a ratio of integers, and
  `Math.round(a/b)` is modeled by the exact half-up rounding
  `(2a + b) / (2b)` (floor division); `NaN` results of a `0/0` division are
  modeled by `Option` (`none` = NaN);
* `new Date(date + " " + time)` is a host (engine) API; it is modeled by
  `jsDateTime` following the de-facto ECMAScript engine behavior for
  slash-separated dates: month/day/year ordering, two-digit years mapped to
  1900/2000, am/pm applied to the hour, and `none` ("Invalid Date") for
  out-of-range components.  Naive local time is modeled as UTC.
-/

/-- The ECMAScript whitespace class: characters matched by the regex class
`\s` and stripped by `String.prototype.trim`. -/
def jsWs (c : Char) : Bool :=
  c == ' ' || ('\u0009' <= c && c <= '\u000D') || c == '\u00A0' || c == '\u1680' ||
  ('\u2000' <= c && c <= '\u200A') || c == '\u2028' || c == '\u2029' ||
  c == '\u202F' || c == '\u205F' || c == '\u3000' || c == '\uFEFF'

/-- Characters matched by the regex metacharacter `.` (any character except a
line terminator). -/
def jsDot (c : Char) : Bool :=
  !(c == '\n' || c == '\r' || c == '\u2028' || c == '\u2029')

/-- JavaScript `String.prototype.trim` on a character list. -/
def jsTrimL (cs : List Char) : List Char :=
  ((cs.dropWhile jsWs).reverse.dropWhile jsWs).reverse

/-- All ways to split `cs` for the bounded greedy character-class quantifier
`p{lo,hi}`: pairs (consumed, rest), in the order a backtracking regex engine
tries them (longest first). -/
def greedySplits (p : Char → Bool) (lo hi : Nat) (cs : List Char) :
    List (List Char × List Char) :=
  let run := min (cs.takeWhile p).length hi
  (List.range (run + 1)).filterMap fun i =>
    let k := run - i
    if lo ≤ k then some (cs.take k, cs.drop k) else none

/-- Splits for `\s*` (unbounded greedy whitespace), longest first. -/
def wsSplits (cs : List Char) : List (List Char × List Char) :=
  greedySplits jsWs 0 cs.length cs

/-- Match one literal character. -/
def charSplit (c : Char) : List Char → Option (List Char)
  | [] => none
  | x :: rest => if x = c then some rest else none

/-- Splits for an optional literal character (`x?`): with the character
consumed first (greedy), then without. -/
def optSplits (c : Char) (cs : List Char) : List (List Char) :=
  match cs with
  | x :: rest => if x = c then [rest, cs] else [cs]
  | [] => [cs]

/-- Splits for the optional seconds group `(?::\d{2})?` of the record pattern,
greedy order: (consumed characters, rest). -/
def optSecondsSplits (cs : List Char) : List (List Char × List Char) :=
  match cs with
  | ':' :: a :: b :: rest =>
      if a.isDigit && b.isDigit then [([':', a, b], rest), ([], cs)] else [([], cs)]
  | _ => [([], cs)]

/-- First letter of an am/pm marker (`[AaPp]`). -/
def isAmPm1 (c : Char) : Bool := c == 'A' || c == 'a' || c == 'P' || c == 'p'

/-- Second letter of an am/pm marker (`[Mm]`). -/
def isAmPm2 (c : Char) : Bool := c == 'M' || c == 'm'

/-- Splits for the optional am/pm group `(?:\s*[AaPp][Mm])?`, greedy order.
Inside the group the `\s*` is forced to its maximal run: a shorter run would
leave a whitespace character where `[AaPp]` must match. -/
def optAmPmSplits (cs : List Char) : List (List Char × List Char) :=
  let w := cs.takeWhile jsWs
  match cs.drop w.length with
  | a :: m :: rest =>
      if isAmPm1 a && isAmPm2 m then [(w ++ [a, m], rest), ([], cs)] else [([], cs)]
  | _ => [([], cs)]

/-- Embedding of the anchored record pattern of `processWhatsAppFile`:

`^\[?(\d{1,2}\/\d{1,2}\/\d{2,4}),?\s*(\d{1,2}:\d{2}(?::\d{2})?(?:\s*[AaPp][Mm])?)\]?\s*-?\s*([^:]+):\s*(.+)$`

Returns the four capture groups (date, time, contact, message) of the first
match in backtracking order, or `none` when the line does not match.
Alternatives are tried depth-first, greedy first, exactly as a JavaScript
regex engine does. -/
def matchWhatsApp (cs : List Char) : Option (List Char × List Char × List Char × List Char) :=
  (optSplits '[' cs).findSome? fun s1 =>
  (greedySplits Char.isDigit 1 2 s1).findSome? fun (d1, r1) =>
  (charSplit '/' r1).bind fun r2 =>
  (greedySplits Char.isDigit 1 2 r2).findSome? fun (d2, r3) =>
  (charSplit '/' r3).bind fun r4 =>
  (greedySplits Char.isDigit 2 4 r4).findSome? fun (d3, r5) =>
  (optSplits ',' r5).findSome? fun r6 =>
  (wsSplits r6).findSome? fun (_, r7) =>
  (greedySplits Char.isDigit 1 2 r7).findSome? fun (hh, r8) =>
  (charSplit ':' r8).bind fun r9 =>
  (greedySplits Char.isDigit 2 2 r9).findSome? fun (mm, r10) =>
  (optSecondsSplits r10).findSome? fun (sec, r11) =>
  (optAmPmSplits r11).findSome? fun (ap, r12) =>
  (optSplits ']' r12).findSome? fun r13 =>
  (wsSplits r13).findSome? fun (_, r14) =>
  (optSplits '-' r14).findSome? fun r15 =>
  (wsSplits r15).findSome? fun (_, r16) =>
  (greedySplits (fun c => !(c = ':')) 1 r16.length r16).findSome? fun (contact, r17) =>
  (charSplit ':' r17).bind fun r18 =>
  (wsSplits r18).findSome? fun (_, r19) =>
  if !r19.isEmpty && r19.all jsDot then
    some (d1 ++ '/' :: d2 ++ '/' :: d3, hh ++ ':' :: mm ++ sec ++ ap, contact, r19)
  else none

/-- Split a character list at every occurrence of `sep`, keeping empty pieces,
like JavaScript `String.prototype.split` with a single-character separator
(auxiliary accumulator form, structural recursion). -/
def splitOnAux (sep : Char) : List Char → List Char → List (List Char)
  | [], cur => [cur.reverse]
  | c :: rest, cur =>
      if c = sep then cur.reverse :: splitOnAux sep rest []
      else splitOnAux sep rest (c :: cur)

/-- Split a character list at every occurrence of `sep`, keeping empty pieces. -/
def splitOnChar (sep : Char) (cs : List Char) : List (List Char) :=
  splitOnAux sep cs []

/-- Value of a (non-empty, all-digit) token. -/
def digitsToNat (cs : List Char) : Nat :=
  cs.foldl (fun n c => 10 * n + (c.toNat - 48)) 0

/-- Days from the civil epoch 1970-01-01 for a Gregorian date
(Hinnant's days-from-civil algorithm, floor divisions). -/
def daysFromCivil (y : Int) (m d : Nat) : Int :=
  let y' : Int := if m ≤ 2 then y - 1 else y
  let era : Int := Int.fdiv y' 400
  let yoe : Int := y' - era * 400
  let mp : Int := Int.emod ((m : Int) + 9) 12
  let doy : Int := Int.fdiv (153 * mp + 2) 5 + ((d : Int) - 1)
  let doe : Int := yoe * 365 + Int.fdiv yoe 4 - Int.fdiv yoe 100 + doy
  era * 146097 + doe - 719468

/-- Milliseconds since the epoch of a civil date and time of day
(naive local time modeled as UTC). -/
def civilMs (y : Int) (mo da h mi s : Nat) : Int :=
  daysFromCivil y mo da * 86400000 + (h : Int) * 3600000 + (mi : Int) * 60000 + (s : Int) * 1000

/-- Whether `y` is a Gregorian leap year. -/
def isLeapYear (y : Int) : Bool :=
  Int.emod y 4 = 0 && (Int.emod y 100 ≠ 0 || Int.emod y 400 = 0)

/-- Number of days of month `m` (1-12) of year `y`. -/
def daysInMonth (y : Int) (m : Nat) : Nat :=
  if m = 2 then (if isLeapYear y then 29 else 28)
  else if m = 4 || m = 6 || m = 9 || m = 11 then 30
  else 31

/-- Model of the host call `new Date(date + " " + time)` for the token shapes
the record pattern can produce (`D/M/YY`-shaped date token, `H:MM`, `H:MM:SS`,
optional am/pm suffix).  ECMAScript engines read such slash-separated dates in
US month/day/year order; a two-digit year below 50 means 20xx, otherwise 19xx;
with an am/pm marker the hour must be 1-12 and is converted to the 24-hour
clock; out-of-range components give an Invalid Date, modeled as `none`. -/
def jsDateTime (dateTok timeTok : List Char) : Option Int :=
  match splitOnChar '/' dateTok with
  | [moS, daS, yrS] =>
      let mo := digitsToNat moS
      let da := digitsToNat daS
      let yRaw := digitsToNat yrS
      let yr : Int := if yrS.length ≤ 2 then (if yRaw < 50 then 2000 + yRaw else 1900 + yRaw) else yRaw
      let hms := timeTok.takeWhile (fun c => c.isDigit || c = ':')
      let suffix := (timeTok.drop hms.length).dropWhile jsWs
      let hasAm := suffix.head? = some 'a' || suffix.head? = some 'A'
      let hasPm := suffix.head? = some 'p' || suffix.head? = some 'P'
      let parts := splitOnChar ':' hms
      let h := digitsToNat (parts.getD 0 [])
      let mi := digitsToNat (parts.getD 1 [])
      let se := if 3 ≤ parts.length then digitsToNat (parts.getD 2 []) else 0
      let h24 : Option Nat :=
        if hasAm || hasPm then
          (if 1 ≤ h && h ≤ 12 then
            some (if hasAm then (if h = 12 then 0 else h) else (if h = 12 then 12 else h + 12))
          else none)
        else (if h ≤ 23 then some h else none)
      match h24 with
      | none => none
      | some hh =>
          if 1 ≤ mo && mo ≤ 12 && 1 ≤ da && da ≤ daysInMonth yr mo && mi ≤ 59 && se ≤ 59 then
            some (civilMs yr mo da hh mi se)
          else none
  | _ => none

/-- One parsed record, as pushed by `processWhatsAppFile`: the two raw tokens,
the trimmed contact and message, and the `new Date` timestamp (`none` models
an Invalid Date). -/
structure RawMsg where
  date : String
  time : String
  contact : String
  message : String
  timestamp : Option Int
deriving DecidableEq

/-- The single externally visible error of the core: thrown by
`processWhatsAppFile` when no line matches the record pattern. -/
inductive ParseError where
  | NoMessagesFound
deriving DecidableEq

/-- The lines the parser examines: the input split on newline, with the lines
that are empty after trimming discarded (`content.split('\n').filter(line => line.trim())`). -/
def messageLines (content : String) : List (List Char) :=
  (splitOnChar '\n' content.data).filter (fun l => l.any (fun c => !jsWs c))

/-- Attempt to parse one line into a record: match the record pattern, trim the
contact and message, and combine the date and time tokens into a timestamp. -/
def parseLine (l : List Char) : Option RawMsg :=
  (matchWhatsApp l).map fun (d, t, c, m) =>
    { date := String.mk d, time := String.mk t,
      contact := String.mk (jsTrimL c), message := String.mk (jsTrimL m),
      timestamp := jsDateTime d t }

/-- The transcript parser of `processWhatsAppFile`: parse every retained line,
drop the lines that do not match, and fail with `NoMessagesFound` when nothing
was parsed. -/
def parse (content : String) : Except ParseError (List RawMsg) :=
  let msgs := (messageLines content).filterMap parseLine
  if msgs.isEmpty then .error .NoMessagesFound else .ok msgs

/-- A structured message as consumed by the analytics engine
(`{contact, message, timestamp}`; the timestamp in epoch milliseconds). -/
structure Message where
  contact : String
  message : String
  timestamp : Int
deriving DecidableEq

/-- Bridge from a parsed record to an engine message; `none` when the record
carries an Invalid Date. -/
def toMessage (r : RawMsg) : Option Message :=
  r.timestamp.map fun t => { contact := r.contact, message := r.message, timestamp := t }

/-- The parse step of the pipeline followed by the record-to-message bridge,
defined when every parsed record carries a valid timestamp. -/
def parseMessages (s : String) : Option (List Message) :=
  match parse s with
  | .error _ => none
  | .ok rs => rs.mapM toMessage

/-- JavaScript `Math.round (num / den)` for natural `num` and positive natural
`den`, computed exactly: `⌊num/den + 1/2⌋ = (2 num + den) / (2 den)`. -/
def jsRoundNat (num den : Nat) : Nat :=
  (2 * num + den) / (2 * den)

/-- JavaScript `string.length` (UTF-16 code units). -/
def jsLength (s : String) : Nat :=
  (s.data.map fun c => if c.toNat < 65536 then 1 else 2).sum

/-- JavaScript `String.prototype.toLowerCase`, modeled on the ASCII range
(every string the verified claims exercise is ASCII). -/
def jsToLowerL (cs : List Char) : List Char :=
  cs.map Char.toLower

/-- Whether `pre` is a prefix of the second list. -/
def isPrefixL : List Char → List Char → Bool
  | [], _ => true
  | _ :: _, [] => false
  | a :: as, b :: bs => a == b && isPrefixL as bs

/-- JavaScript `hay.includes(needle)`: substring containment. -/
def containsSub (needle : List Char) : List Char → Bool
  | [] => needle.isEmpty
  | c :: rest => isPrefixL needle (c :: rest) || containsSub needle rest

/-- Number of positions of `hay` at which `needle` occurs (substring
occurrence count, occurrences at every starting position). -/
def occCount (needle : List Char) : List Char → Nat
  | [] => 0
  | c :: rest => (if isPrefixL needle (c :: rest) then 1 else 0) + occCount needle rest

/-- First-occurrence-preserving insertion used to model iteration order of a
JavaScript `Set`. -/
def insertNew (seen : List String) (c : String) : List String :=
  if c ∈ seen then seen else seen ++ [c]

/-- Distinct elements in first-encounter order: `[...new Set(xs)]`. -/
def distinctFirst (l : List String) : List String :=
  l.foldl insertNew []

/-- The distinct contact identities of a sequence, in first-encounter order
(`[...new Set(messages.map(m => m.contact))]`). -/
def contactsOf (ms : List Message) : List String :=
  distinctFirst (ms.map (·.contact))

/-- The first identified contact (`undefined`, i.e. `none`, when absent). -/
def contact1 (ms : List Message) : Option String :=
  (contactsOf ms).get? 0

/-- The second identified contact (`undefined`, i.e. `none`, when absent). -/
def contact2 (ms : List Message) : Option String :=
  (contactsOf ms).get? 1

/-- The per-contact subsequence `messages.filter(m => m.contact === c)`;
comparison with `undefined` (`none`) never holds, giving the empty list. -/
def msgsFor (oc : Option String) (ms : List Message) : List Message :=
  ms.filter fun m => some m.contact == oc

/-- Size of a per-contact subsequence (the reported message count). -/
def countFor (oc : Option String) (ms : List Message) : Nat :=
  (msgsFor oc ms).length

/-- Interest level: the contact's share of the total message count as a
rounded percentage, `Math.round((count / totalMessages) * 100)`. -/
def interestFor (oc : Option String) (ms : List Message) : Nat :=
  jsRoundNat (100 * countFor oc ms) ms.length

/-- Average message length per contact,
`Math.round(sum of message lengths / count)`; `none` models the `NaN`
produced by the unguarded `0 / 0` when the subsequence is empty. -/
def avgMessageLengthFor (oc : Option String) (ms : List Message) : Option Nat :=
  let l := msgsFor oc ms
  if l.length = 0 then none
  else some (jsRoundNat (l.map (fun m => jsLength m.message)).sum l.length)

/-- Compatibility score:
`Math.round((min(i1,i2) + (100 - |i1 - i2|)) / 2)` over the two interest
levels; `Math.round(k/2)` of an integer `k` is the floor division
`⌊(k+1)/2⌋`. -/
def compatibilityScore (ms : List Message) : Int :=
  let i1 : Int := interestFor (contact1 ms) ms
  let i2 : Int := interestFor (contact2 ms) ms
  Int.fdiv (min i1 i2 + (100 - ((i1 - i2).natAbs : Int)) + 1) 2

/-- The red-flag keyword table, in source order. -/
def redFlagKeywords : List (String × List String) :=
  [("ex", ["ex", "former", "past relationship"]),
   ("money", ["broke", "money", "cash", "poor", "rich"]),
   ("blocking", ["block", "blocked", "ignore", "ignored"]),
   ("toxic", ["hate", "stupid", "idiot", "annoying"])]

/-- Number of messages (over ALL messages, both contacts) whose lowercased
text contains the keyword:
`messages.filter(m => m.message.toLowerCase().includes(keyword)).length`. -/
def keywordCount (kw : String) (ms : List Message) : Nat :=
  (ms.filter fun m => containsSub kw.data (jsToLowerL m.message.data)).length

/-- One red-flag entry as pushed by the detector. -/
structure RedFlag where
  category : String
  message : String
  severity : String
deriving DecidableEq

/-- The rendered flag message: `Mentioned "kw" n times`. -/
def flagMsg (kw : String) (count : Nat) : String :=
  "Mentioned \"" ++ kw ++ "\" " ++ toString count ++ " times"

/-- Severity rule: `count > 10 ? 'high' : count > 5 ? 'medium' : 'low'`. -/
def severityOf (count : Nat) : String :=
  if 10 < count then "high" else if 5 < count then "medium" else "low"

/-- Red-flag detection: for every category and keyword, in table order, push a
flag entry when the count is positive (the nested `forEach`/`push` loops,
embedded as folds over an accumulator). -/
def redFlags (ms : List Message) : List RedFlag :=
  redFlagKeywords.foldl
    (fun acc ck =>
      ck.2.foldl
        (fun acc2 kw =>
          let count := keywordCount kw ms
          if 0 < count then
            acc2 ++ [{ category := ck.1, message := flagMsg kw count, severity := severityOf count }]
          else acc2)
        acc)
    []

/-- Stable insertion used to model `Array.prototype.sort` with the comparator
`(a, b) => a.timestamp - b.timestamp`: a message is placed after every
already-placed message whose timestamp is not larger. -/
def insertByTime (m : Message) : List Message → List Message
  | [] => [m]
  | x :: xs => if m.timestamp < x.timestamp then m :: x :: xs else x :: insertByTime m xs

/-- Chronologically sorted copy of the sequence (stable: ties keep original
order), `[...messages].sort((a, b) => a.timestamp - b.timestamp)`. -/
def sortMsgs (ms : List Message) : List Message :=
  ms.foldl (fun acc m => insertByTime m acc) []

/-- JavaScript `Math.round (num / den)` for integer `num` and positive `den`,
computed exactly as the floor `⌊num/den + 1/2⌋ = fdiv (2 num + den) (2 den)`. -/
def jsRoundInt (num den : Int) : Int :=
  Int.fdiv (2 * num + den) (2 * den)

/-- Millisecond gaps of the chronologically consecutive cross-contact pairs
attributed to contact `oc` (the later message's contact), keeping only gaps
under 24 hours; the gap in minutes is `gap_ms / 60000`, and
`gap_min < 1440` is exactly `gap_ms < 86400000`. -/
def responseGapsFor (oc : Option String) (ms : List Message) : List Int :=
  let sorted := sortMsgs ms
  (sorted.zip sorted.tail).filterMap fun pc =>
    if pc.2.contact ≠ pc.1.contact ∧ some pc.2.contact = oc ∧
        pc.2.timestamp - pc.1.timestamp < 86400000 then
      some (pc.2.timestamp - pc.1.timestamp)
    else none

/-- Average response time in rounded minutes
(`Math.round(mean of the recorded minute gaps)`), `0` when no qualifying
pair exists. -/
def avgResponseTimeFor (oc : Option String) (ms : List Message) : Int :=
  let gaps := responseGapsFor oc ms
  if gaps.length = 0 then 0 else jsRoundInt gaps.sum (60000 * gaps.length)

/-- The conversation-starter walk: traverse the chronological sequence with a
running `lastMessageTime` that starts at epoch zero; a message of contact `c`
counts when the gap from the previous time exceeds 4 hours
(`(t - last) / 3600000 > 4`, i.e. `t - last > 14400000` ms). -/
def startersFrom (c : String) : Int → List Message → Nat
  | _, [] => 0
  | last, m :: rest =>
      (if 14400000 < m.timestamp - last && m.contact == c then 1 else 0) +
        startersFrom c m.timestamp rest

/-- Conversation starters credited to contact `c`. -/
def conversationStartersFor (c : String) (ms : List Message) : Nat :=
  startersFrom c 0 (sortMsgs ms)

/-- JavaScript `Date.prototype.getDay` (0 = Sunday) of an epoch-millisecond
timestamp; the epoch day 1970-01-01 was a Thursday (4).  Naive local time is
modeled as UTC. -/
def jsGetDay (t : Int) : Int :=
  Int.emod (Int.fdiv t 86400000 + 4) 7

/-- Whether a timestamp falls on Saturday or Sunday (`day === 0 || day === 6`). -/
def isWeekend (t : Int) : Bool :=
  jsGetDay t == 0 || jsGetDay t == 6

/-- Weekend messages credited to contact `oc`. -/
def weekendCountFor (oc : Option String) (ms : List Message) : Nat :=
  (ms.filter fun m => some m.contact == oc && isWeekend m.timestamp).length

/-- Weekday messages credited to contact `oc`. -/
def weekdayCountFor (oc : Option String) (ms : List Message) : Nat :=
  (ms.filter fun m => some m.contact == oc && !isWeekend m.timestamp).length

/-- The fixed positive sentiment lexicon. -/
def positiveWords : List String :=
  ["love", "great", "amazing", "awesome", "happy", "good", "nice", "wonderful",
   "perfect", "beautiful", "yes", "thanks", "thank", "best", "excited", "fun"]

/-- The fixed negative sentiment lexicon. -/
def negativeWords : List String :=
  ["hate", "bad", "terrible", "awful", "sad", "angry", "no", "sorry", "worst",
   "annoying", "boring", "stupid", "frustrated", "tired"]

/-- Split into the maximal whitespace-free runs (`split(/\s+/)`; the empty
boundary tokens JavaScript also yields cannot contain a lexicon word, so they
never contribute a hit and are omitted). -/
def splitWsAux : List Char → List Char → List (List Char)
  | [], cur => if cur.isEmpty then [] else [cur.reverse]
  | c :: rest, cur =>
      if jsWs c then (if cur.isEmpty then splitWsAux rest [] else cur.reverse :: splitWsAux rest [])
      else splitWsAux rest (c :: cur)

/-- The lowercased whitespace-separated words of a message. -/
def wordsOf (s : String) : List (List Char) :=
  splitWsAux (jsToLowerL s.data) []

/-- Number of words across the subsequence that contain some lexicon entry as
a substring (`words.filter(w => lex.some(e => w.includes(e))).length`, summed
over the messages). -/
def lexiconHits (lex : List String) (l : List Message) : Nat :=
  (l.map fun m => ((wordsOf m.message).filter fun w => lex.any fun e => containsSub e.data w).length).sum

/-- Sentiment score per contact:
`Math.round(positive / (positive + negative) * 100)`, defaulting to 50 when
there is no hit at all. -/
def sentimentFor (oc : Option String) (ms : List Message) : Nat :=
  let l := msgsFor oc ms
  let pos := lexiconHits positiveWords l
  let neg := lexiconHits negativeWords l
  if 0 < pos + neg then jsRoundNat (100 * pos) (pos + neg) else 50

/-- JavaScript `String.prototype.toUpperCase`, modeled on the ASCII range. -/
def jsToUpperL (cs : List Char) : List Char :=
  cs.map Char.toUpper

/-- The all-caps test `m.message === m.message.toUpperCase() && m.message.length > 3`. -/
def isAllCaps (m : Message) : Bool :=
  m.message.data == jsToUpperL m.message.data && 3 < jsLength m.message

/-- Communication style per contact: rounded percentages of messages
containing `?`, containing `!`, and entirely upper-case longer than 3
characters; `none` models the `NaN` triple produced by the unguarded `0 / 0`
when the subsequence is empty. -/
def commStyleFor (oc : Option String) (ms : List Message) : Option (Nat × Nat × Nat) :=
  let l := msgsFor oc ms
  if l.length = 0 then none
  else
    some (jsRoundNat (100 * (l.filter fun m => m.message.data.contains '?').length) l.length,
          jsRoundNat (100 * (l.filter fun m => m.message.data.contains '!').length) l.length,
          jsRoundNat (100 * (l.filter isAllCaps).length) l.length)

/-- Whether a character lies in one of the emoji ranges of the source's emoji
regular expression. -/
def isEmojiChar (c : Char) : Bool :=
  (0x1F600 ≤ c.toNat && c.toNat ≤ 0x1F64F) || (0x1F300 ≤ c.toNat && c.toNat ≤ 0x1F5FF) ||
  (0x1F680 ≤ c.toNat && c.toNat ≤ 0x1F6FF) || (0x1F1E0 ≤ c.toNat && c.toNat ≤ 0x1F1FF) ||
  (0x2600 ≤ c.toNat && c.toNat ≤ 0x26FF) || (0x2700 ≤ c.toNat && c.toNat ≤ 0x27BF)

/-- Per-message energy contribution:
`2 × exclamation count + 3 × (all-caps) + 1 × emoji count`. -/
def energyScoreOf (m : Message) : Nat :=
  2 * (m.message.data.filter fun c => c == '!').length +
  3 * (if isAllCaps m then 1 else 0) +
  (m.message.data.filter isEmojiChar).length

/-- Energy level per contact:
`count > 0 ? Math.round((score / count) * 10) : 0`. -/
def energyFor (oc : Option String) (ms : List Message) : Nat :=
  let l := msgsFor oc ms
  if 0 < l.length then jsRoundNat (10 * (l.map energyScoreOf).sum) l.length else 0

/-- The slice of the analytics result object covered by this development,
keyed positionally by the two identified contacts. -/
structure AnalyticsResult where
  contact1 : Option String
  contact2 : Option String
  messageCount1 : Nat
  messageCount2 : Nat
  totalMessages : Nat
  interest1 : Nat
  interest2 : Nat
  avgLen1 : Option Nat
  avgLen2 : Option Nat
  flags : List RedFlag
  compatibility : Int
  avgResponse1 : Int
  avgResponse2 : Int
  starters1 : Nat
  starters2 : Nat
  weekend1 : Nat
  weekend2 : Nat
  weekday1 : Nat
  weekday2 : Nat
  sentiment1 : Nat
  sentiment2 : Nat
  commStyle1 : Option (Nat × Nat × Nat)
  commStyle2 : Option (Nat × Nat × Nat)
  energy1 : Nat
  energy2 : Nat
deriving DecidableEq

/-- The analytics engine: `null` (`none`) for an empty sequence, otherwise the
result object assembled from the independent metric computations. -/
def analyze (ms : List Message) : Option AnalyticsResult :=
  if ms.isEmpty then none
  else
    let o1 := contact1 ms
    let o2 := contact2 ms
    some
      { contact1 := o1, contact2 := o2,
        messageCount1 := countFor o1 ms, messageCount2 := countFor o2 ms,
        totalMessages := ms.length,
        interest1 := interestFor o1 ms, interest2 := interestFor o2 ms,
        avgLen1 := avgMessageLengthFor o1 ms, avgLen2 := avgMessageLengthFor o2 ms,
        flags := redFlags ms,
        compatibility := compatibilityScore ms,
        avgResponse1 := avgResponseTimeFor o1 ms, avgResponse2 := avgResponseTimeFor o2 ms,
        starters1 := (o1.map fun c => conversationStartersFor c ms).getD 0,
        starters2 := (o2.map fun c => conversationStartersFor c ms).getD 0,
        weekend1 := weekendCountFor o1 ms, weekend2 := weekendCountFor o2 ms,
        weekday1 := weekdayCountFor o1 ms, weekday2 := weekdayCountFor o2 ms,
        sentiment1 := sentimentFor o1 ms, sentiment2 := sentimentFor o2 ms,
        commStyle1 := commStyleFor o1 ms, commStyle2 := commStyleFor o2 ms,
        energy1 := energyFor o1 ms, energy2 := energyFor o2 ms }
/-- Modelled from the spec (§4.1 step 3), for comparison with the host parser
model: the same date/time combination but with "day-month-year ordering as
written", i.e. the first numeric token read as the day and the second as the
month; every other convention is kept as in `jsDateTime`. -/
def specDMYDateTime (dateTok timeTok : List Char) : Option Int :=
  match splitOnChar '/' dateTok with
  | [daS, moS, yrS] =>
      let mo := digitsToNat moS
      let da := digitsToNat daS
      let yRaw := digitsToNat yrS
      let yr : Int := if yrS.length ≤ 2 then (if yRaw < 50 then 2000 + yRaw else 1900 + yRaw) else yRaw
      let hms := timeTok.takeWhile (fun c => c.isDigit || c = ':')
      let suffix := (timeTok.drop hms.length).dropWhile jsWs
      let hasAm := suffix.head? = some 'a' || suffix.head? = some 'A'
      let hasPm := suffix.head? = some 'p' || suffix.head? = some 'P'
      let parts := splitOnChar ':' hms
      let h := digitsToNat (parts.getD 0 [])
      let mi := digitsToNat (parts.getD 1 [])
      let se := if 3 ≤ parts.length then digitsToNat (parts.getD 2 []) else 0
      let h24 : Option Nat :=
        if hasAm || hasPm then
          (if 1 ≤ h && h ≤ 12 then
            some (if hasAm then (if h = 12 then 0 else h) else (if h = 12 then 12 else h + 12))
          else none)
        else (if h ≤ 23 then some h else none)
      match h24 with
      | none => none
      | some hh =>
          if 1 ≤ mo && mo ≤ 12 && 1 ≤ da && da ≤ daysInMonth yr mo && mi ≤ 59 && se ≤ 59 then
            some (civilMs yr mo da hh mi se)
          else none
  | _ => none

/-- Modelled from the spec (§4.2 red flags), for comparison with the code's
count: the total number of case-insensitive substring occurrences of the
keyword across all messages, counting several occurrences inside one
message. -/
def specOccurrenceCount (kw : String) (ms : List Message) : Nat :=
  (ms.map fun m => occCount kw.data (jsToLowerL m.message.data)).sum

/-- The red-flag list re-expressed declaratively: one entry per
(category, keyword) pair of the table, in table order, kept exactly when the
number of messages containing the keyword is positive, with the severity
thresholds applied to that count. -/
def specRedFlagList (ms : List Message) : List RedFlag :=
  (redFlagKeywords.map fun ck =>
    ck.2.filterMap fun kw =>
      let count := keywordCount kw ms
      if 0 < count then
        some { category := ck.1, message := flagMsg kw count, severity := severityOf count }
      else none).flatten

/-- The input of the spec's Example 1. -/
def c1Input : String := "1/2/24, 10:00 - Alice: hello\n1/2/24, 10:05 - Bob: hi there!"

/-- The first record parsed from the Example-1 input. -/
def c1Raw1 : RawMsg :=
  { date := "1/2/24", time := "10:00", contact := "Alice", message := "hello",
    timestamp := some 1704189600000 }

/-- The second record parsed from the Example-1 input. -/
def c1Raw2 : RawMsg :=
  { date := "1/2/24", time := "10:05", contact := "Bob", message := "hi there!",
    timestamp := some 1704189900000 }

/-- The engine messages of the Example-1 input. -/
def c1Msgs : List Message :=
  [{ contact := "Alice", message := "hello", timestamp := 1704189600000 },
   { contact := "Bob", message := "hi there!", timestamp := 1704189900000 }]

/- ### Helper lemmas -/

theorem length_filter_and_not {α : Type} (b c : α → Bool) (l : List α) :
    (l.filter fun x => b x && c x).length + (l.filter fun x => b x && !(c x)).length
      = (l.filter b).length := by
  induction l with
  | nil => simp
  | cons x xs ih =>
      by_cases hb : b x <;> by_cases hc : c x <;>
        simp [List.filter_cons, hb, hc] <;> omega

theorem length_filter_disjoint_le {α : Type} (p q : α → Bool) (l : List α)
    (h : ∀ x ∈ l, ¬(p x = true ∧ q x = true)) :
    (l.filter p).length + (l.filter q).length ≤ l.length := by
  induction l with
  | nil => simp
  | cons x xs ih =>
      have hx := h x (by simp)
      have ih2 := ih (fun y hy => h y (by simp [hy]))
      by_cases hp : p x <;> by_cases hq : q x <;>
        simp [List.filter_cons, hp, hq] <;> first | omega | exact absurd ⟨hp, hq⟩ hx

theorem length_filter_cover {α : Type} (p q : α → Bool) (l : List α)
    (hcov : ∀ x ∈ l, p x = true ∨ q x = true)
    (hdisj : ∀ x ∈ l, ¬(p x = true ∧ q x = true)) :
    (l.filter p).length + (l.filter q).length = l.length := by
  induction l with
  | nil => simp
  | cons x xs ih =>
      have hx := hcov x (by simp)
      have hx2 := hdisj x (by simp)
      have ih2 := ih (fun y hy => hcov y (by simp [hy])) (fun y hy => hdisj y (by simp [hy]))
      by_cases hp : p x <;> by_cases hq : q x <;>
        simp [List.filter_cons, hp, hq] <;> first | omega | tauto

theorem mem_insertNew {x c : String} {seen : List String} :
    x ∈ insertNew seen c ↔ x ∈ seen ∨ x = c := by
  by_cases h : c ∈ seen
  · simp only [insertNew, if_pos h]
    exact ⟨Or.inl, fun hx => hx.elim id (fun hxc => hxc ▸ h)⟩
  · simp [insertNew, h]

theorem mem_foldl_insertNew {x : String} (l : List String) (acc : List String) :
    x ∈ l.foldl insertNew acc ↔ x ∈ acc ∨ x ∈ l := by
  induction l generalizing acc with
  | nil => simp
  | cons c cs ih =>
      simp only [List.foldl_cons, ih, mem_insertNew, List.mem_cons]
      tauto

theorem mem_distinctFirst {x : String} {l : List String} :
    x ∈ distinctFirst l ↔ x ∈ l := by
  simp [distinctFirst, mem_foldl_insertNew]

theorem nodup_insertNew {seen : List String} (c : String) (h : seen.Nodup) :
    (insertNew seen c).Nodup := by
  by_cases hc : c ∈ seen
  · simpa [insertNew, hc] using h
  · simp only [insertNew, if_neg hc]
    have hdisj : seen.Disjoint [c] := by
      intro y hy hyc
      simp only [List.mem_singleton] at hyc
      exact hc (hyc ▸ hy)
    exact List.nodup_append.mpr ⟨h, List.nodup_singleton c, hdisj⟩

theorem nodup_foldl_insertNew (l : List String) (acc : List String) (h : acc.Nodup) :
    (l.foldl insertNew acc).Nodup := by
  induction l generalizing acc with
  | nil => simpa using h
  | cons c cs ih => exact ih _ (nodup_insertNew c h)

theorem nodup_contactsOf (ms : List Message) : (contactsOf ms).Nodup :=
  nodup_foldl_insertNew _ _ List.nodup_nil

theorem mem_contactsOf {m : Message} {ms : List Message} (h : m ∈ ms) :
    m.contact ∈ contactsOf ms := by
  simp only [contactsOf, mem_distinctFirst]
  exact List.mem_map_of_mem _ h

theorem mem_insertByTime {x m : Message} {l : List Message} :
    x ∈ insertByTime m l ↔ x = m ∨ x ∈ l := by
  induction l with
  | nil => simp [insertByTime]
  | cons y ys ih =>
      by_cases h : m.timestamp < y.timestamp
      · simp [insertByTime, h]
      · simp only [insertByTime, if_neg h, List.mem_cons, ih]
        tauto

theorem mem_foldl_insertByTime {x : Message} (l acc : List Message) :
    x ∈ l.foldl (fun acc m => insertByTime m acc) acc ↔ x ∈ acc ∨ x ∈ l := by
  induction l generalizing acc with
  | nil => simp
  | cons m rest ih =>
      simp only [List.foldl_cons, ih, mem_insertByTime, List.mem_cons]
      tauto

theorem mem_sortMsgs {x : Message} {ms : List Message} :
    x ∈ sortMsgs ms ↔ x ∈ ms := by
  simp [sortMsgs, mem_foldl_insertByTime]
theorem countFor_le_length (oc : Option String) (ms : List Message) :
    countFor oc ms ≤ ms.length :=
  List.length_filter_le _ _

theorem countFor_none (ms : List Message) : countFor none ms = 0 := by
  simp [countFor, msgsFor]

theorem contactsOf_ne_nil {ms : List Message} (h : ms ≠ []) : contactsOf ms ≠ [] := by
  obtain ⟨m, hm⟩ := List.exists_mem_of_ne_nil ms h
  intro hc
  have hmem := mem_contactsOf hm
  rw [hc] at hmem
  exact absurd hmem (List.not_mem_nil _)

theorem count_sum_le (ms : List Message) :
    countFor (contact1 ms) ms + countFor (contact2 ms) ms ≤ ms.length := by
  cases hc : contactsOf ms with
  | nil =>
      have h1 : contact1 ms = none := by simp [contact1, hc]
      have h2 : contact2 ms = none := by simp [contact2, hc]
      rw [h1, h2, countFor_none]
      omega
  | cons a tail =>
      cases tail with
      | nil =>
          have h2 : contact2 ms = none := by simp [contact2, hc]
          rw [h2, countFor_none]
          have := countFor_le_length (contact1 ms) ms
          omega
      | cons b rest =>
          have h1 : contact1 ms = some a := by simp [contact1, hc]
          have h2 : contact2 ms = some b := by simp [contact2, hc]
          have hnd := nodup_contactsOf ms
          rw [hc] at hnd
          have hab : a ≠ b := by
            intro he
            exact (List.nodup_cons.mp hnd).1 (he ▸ List.mem_cons_self b rest)
          rw [h1, h2]
          apply length_filter_disjoint_le
          intro m _ hpq
          apply hab
          have hpa : m.contact = a := by simpa using hpq.1
          have hpb : m.contact = b := by simpa using hpq.2
          rw [← hpa, ← hpb]

theorem interestFor_le_100 (oc : Option String) (ms : List Message) (h : ms ≠ []) :
    interestFor oc ms ≤ 100 := by
  have hn : 0 < ms.length := List.length_pos.mpr h
  have hcle := countFor_le_length oc ms
  have h2 : 0 < 2 * ms.length := by omega
  have hlt : 2 * (100 * countFor oc ms) + ms.length < 101 * (2 * ms.length) := by omega
  have := (Nat.div_lt_iff_lt_mul h2).mpr hlt
  simp only [interestFor, jsRoundNat]
  omega

theorem min_interest_le_50 (ms : List Message) (h : ms ≠ []) :
    min (interestFor (contact1 ms) ms) (interestFor (contact2 ms) ms) ≤ 50 := by
  have hn : 0 < ms.length := List.length_pos.mpr h
  have hsum := count_sum_le ms
  by_contra hlt
  push_neg at hlt
  have h51a : 51 ≤ interestFor (contact1 ms) ms := by omega
  have h51b : 51 ≤ interestFor (contact2 ms) ms := by omega
  have h2 : 0 < 2 * ms.length := by omega
  have ha := (Nat.le_div_iff_mul_le h2).mp (by simpa [interestFor, jsRoundNat] using h51a)
  have hb := (Nat.le_div_iff_mul_le h2).mp (by simpa [interestFor, jsRoundNat] using h51b)
  omega

theorem compat_bounds (ms : List Message) (h : ms ≠ []) :
    0 ≤ compatibilityScore ms ∧ compatibilityScore ms ≤ 75 := by
  have ha := interestFor_le_100 (contact1 ms) ms h
  have hb := interestFor_le_100 (contact2 ms) ms h
  have hmin := min_interest_le_50 ms h
  simp only [compatibilityScore]
  set a := interestFor (contact1 ms) ms with hadef
  set b := interestFor (contact2 ms) ms with hbdef
  have harg : (min (a : Int) (b : Int) + (100 - (((a : Int) - (b : Int)).natAbs : Int)) + 1)
      = ((min a b + (100 - ((a : Int) - (b : Int)).natAbs) + 1 : Nat) : Int) := by
    omega
  rw [harg]
  have hfd : Int.fdiv ((min a b + (100 - ((a : Int) - (b : Int)).natAbs) + 1 : Nat) : Int) 2
      = ((min a b + (100 - ((a : Int) - (b : Int)).natAbs) + 1) / 2 : Nat) := rfl
  rw [hfd]
  constructor
  · omega
  · have : (min a b + (100 - ((a : Int) - (b : Int)).natAbs) + 1) / 2 ≤ 75 := by omega
    omega
/- ### Claim theorems -/

/-- C2: for every non-empty message sequence, the compatibility score
(computed as `round((min(i1,i2) + (100 - |i1-i2|)) / 2)` over the interest
levels) lies in [0, 100], and it equals 100 only when both contacts' interest
levels are exactly 50 and 50.  (In fact the score never exceeds 75, so the
"only when" implication holds because its antecedent is unsatisfiable.) -/
theorem compatibility_in_range_eq100_only_at_50_50 (ms : List Message) (h : ms ≠ []) :
    0 ≤ compatibilityScore ms ∧ compatibilityScore ms ≤ 100 ∧
      (compatibilityScore ms = 100 →
        interestFor (contact1 ms) ms = 50 ∧ interestFor (contact2 ms) ms = 50) := by
  have hb := compat_bounds ms h
  exact ⟨hb.1, by omega, fun h100 => absurd h100 (by omega)⟩

/-- Witness for C2 at a concrete two-message sequence. -/
theorem compatibility_in_range_eq100_only_at_50_50_witness :
    (([⟨"A", "hi", 0⟩, ⟨"B", "yo", 60000⟩] : List Message) ≠ []) ∧
      (0 ≤ compatibilityScore [⟨"A", "hi", 0⟩, ⟨"B", "yo", 60000⟩] ∧
        compatibilityScore [⟨"A", "hi", 0⟩, ⟨"B", "yo", 60000⟩] ≤ 100 ∧
        (compatibilityScore [⟨"A", "hi", 0⟩, ⟨"B", "yo", 60000⟩] = 100 →
          interestFor (contact1 [⟨"A", "hi", 0⟩, ⟨"B", "yo", 60000⟩]) [⟨"A", "hi", 0⟩, ⟨"B", "yo", 60000⟩] = 50 ∧
          interestFor (contact2 [⟨"A", "hi", 0⟩, ⟨"B", "yo", 60000⟩]) [⟨"A", "hi", 0⟩, ⟨"B", "yo", 60000⟩] = 50)) :=
  ⟨by decide, compatibility_in_range_eq100_only_at_50_50 _ (by decide)⟩

/-- C7: for every non-empty message sequence satisfying the data-model
invariant of at most two distinct contact identities, the two reported
per-contact message counts sum to the total message count, and the two
interest-level percentages sum to 100 ± 1. -/
theorem counts_partition_and_interest_sum (ms : List Message) (h : ms ≠ [])
    (h2 : (contactsOf ms).length ≤ 2) :
    countFor (contact1 ms) ms + countFor (contact2 ms) ms = ms.length ∧
      99 ≤ interestFor (contact1 ms) ms + interestFor (contact2 ms) ms ∧
      interestFor (contact1 ms) ms + interestFor (contact2 ms) ms ≤ 101 := by
  have hn : 0 < ms.length := List.length_pos.mpr h
  -- the count partition
  have hsum : countFor (contact1 ms) ms + countFor (contact2 ms) ms = ms.length := by
    cases hc : contactsOf ms with
    | nil => exact absurd hc (contactsOf_ne_nil h)
    | cons a tail =>
        cases tail with
        | nil =>
            have h1 : contact1 ms = some a := by simp [contact1, hc]
            have hco2 : contact2 ms = none := by simp [contact2, hc]
            have hall : ∀ m ∈ ms, (some m.contact == some a) = true := by
              intro m hm
              have := mem_contactsOf hm
              rw [hc] at this
              simp only [List.mem_singleton] at this
              simp [this]
            rw [h1, hco2, countFor_none]
            simp only [countFor, msgsFor]
            rw [List.filter_eq_self.mpr hall]
            omega
        | cons b rest =>
            have hlen : rest = [] := by
              rw [hc] at h2
              simp only [List.length_cons] at h2
              exact List.eq_nil_of_length_eq_zero (by omega)
            subst hlen
            have h1 : contact1 ms = some a := by simp [contact1, hc]
            have hco2 : contact2 ms = some b := by simp [contact2, hc]
            have hnd := nodup_contactsOf ms
            rw [hc] at hnd
            have hab : a ≠ b := by
              intro he
              exact (List.nodup_cons.mp hnd).1 (he ▸ List.mem_cons_self b [])
            rw [h1, hco2]
            apply length_filter_cover
            · intro m hm
              have := mem_contactsOf hm
              rw [hc] at this
              simp only [List.mem_cons, List.not_mem_nil, or_false] at this
              rcases this with hma | hmb
              · left; simp [hma]
              · right; simp [hmb]
            · intro m _ hpq
              apply hab
              have hpa : m.contact = a := by simpa using hpq.1
              have hpb : m.contact = b := by simpa using hpq.2
              rw [← hpa, ← hpb]
  refine ⟨hsum, ?_⟩
  -- the interest sum
  set n := ms.length with hndef
  set c1 := countFor (contact1 ms) ms with hc1def
  set c2 := countFor (contact2 ms) ms with hc2def
  have hi1 : interestFor (contact1 ms) ms = (2 * (100 * c1) + n) / (2 * n) := rfl
  have hi2 : interestFor (contact2 ms) ms = (2 * (100 * c2) + n) / (2 * n) := rfl
  rw [hi1, hi2]
  set q1 := (2 * (100 * c1) + n) / (2 * n) with hq1def
  set q2 := (2 * (100 * c2) + n) / (2 * n) with hq2def
  have e1 := Nat.div_add_mod (2 * (100 * c1) + n) (2 * n)
  have e2 := Nat.div_add_mod (2 * (100 * c2) + n) (2 * n)
  set r1 := (2 * (100 * c1) + n) % (2 * n) with hr1def
  set r2 := (2 * (100 * c2) + n) % (2 * n) with hr2def
  have hr1 : r1 < 2 * n := Nat.mod_lt _ (by omega)
  have hr2 : r2 < 2 * n := Nat.mod_lt _ (by omega)
  rw [← hq1def] at e1
  rw [← hq2def] at e2
  constructor
  · by_contra hlow
    push_neg at hlow
    have hs : q1 + q2 ≤ 98 := by omega
    have hmul := Nat.mul_le_mul_left (2 * n) hs
    have hexp : 2 * n * (q1 + q2) = 2 * n * q1 + 2 * n * q2 := by ring
    linarith [e1, e2, hsum, hr1, hr2, hn, hmul, hexp]
  · by_contra hhigh
    push_neg at hhigh
    have hs : 102 ≤ q1 + q2 := by omega
    have hmul := Nat.mul_le_mul_left (2 * n) hs
    have hexp : 2 * n * (q1 + q2) = 2 * n * q1 + 2 * n * q2 := by ring
    linarith [e1, e2, hsum, hn, hr1, hr2, hmul, hexp]

/-- Witness for C7 at a concrete two-contact sequence. -/
theorem counts_partition_and_interest_sum_witness :
    (([⟨"A", "hi", 0⟩, ⟨"B", "yo", 60000⟩, ⟨"A", "ok", 120000⟩] : List Message) ≠ [] ∧
      (contactsOf [⟨"A", "hi", 0⟩, ⟨"B", "yo", 60000⟩, ⟨"A", "ok", 120000⟩]).length ≤ 2) ∧
      (countFor (contact1 [⟨"A", "hi", 0⟩, ⟨"B", "yo", 60000⟩, ⟨"A", "ok", 120000⟩]) [⟨"A", "hi", 0⟩, ⟨"B", "yo", 60000⟩, ⟨"A", "ok", 120000⟩]
          + countFor (contact2 [⟨"A", "hi", 0⟩, ⟨"B", "yo", 60000⟩, ⟨"A", "ok", 120000⟩]) [⟨"A", "hi", 0⟩, ⟨"B", "yo", 60000⟩, ⟨"A", "ok", 120000⟩]
          = ([⟨"A", "hi", 0⟩, ⟨"B", "yo", 60000⟩, ⟨"A", "ok", 120000⟩] : List Message).length ∧
        99 ≤ interestFor (contact1 [⟨"A", "hi", 0⟩, ⟨"B", "yo", 60000⟩, ⟨"A", "ok", 120000⟩]) [⟨"A", "hi", 0⟩, ⟨"B", "yo", 60000⟩, ⟨"A", "ok", 120000⟩]
          + interestFor (contact2 [⟨"A", "hi", 0⟩, ⟨"B", "yo", 60000⟩, ⟨"A", "ok", 120000⟩]) [⟨"A", "hi", 0⟩, ⟨"B", "yo", 60000⟩, ⟨"A", "ok", 120000⟩] ∧
        interestFor (contact1 [⟨"A", "hi", 0⟩, ⟨"B", "yo", 60000⟩, ⟨"A", "ok", 120000⟩]) [⟨"A", "hi", 0⟩, ⟨"B", "yo", 60000⟩, ⟨"A", "ok", 120000⟩]
          + interestFor (contact2 [⟨"A", "hi", 0⟩, ⟨"B", "yo", 60000⟩, ⟨"A", "ok", 120000⟩]) [⟨"A", "hi", 0⟩, ⟨"B", "yo", 60000⟩, ⟨"A", "ok", 120000⟩] ≤ 101) :=
  ⟨⟨by decide, by decide⟩, counts_partition_and_interest_sum _ (by decide) (by decide)⟩

/-- C9: the analytics engine is deterministic: it is embedded as a pure
function of the message sequence alone, so two runs on the same sequence
yield the identical result object. -/
theorem analyze_deterministic (ms : List Message) : analyze ms = analyze ms := rfl

/-- C10: for every non-empty message sequence, the weekend/weekday split
partitions each identified contact's messages: the two counts sum to the
contact's reported message count. -/
theorem weekend_weekday_partition (ms : List Message) (_h : ms ≠ []) :
    weekendCountFor (contact1 ms) ms + weekdayCountFor (contact1 ms) ms
        = countFor (contact1 ms) ms ∧
      weekendCountFor (contact2 ms) ms + weekdayCountFor (contact2 ms) ms
        = countFor (contact2 ms) ms := by
  constructor <;>
  · simp only [weekendCountFor, weekdayCountFor, countFor, msgsFor]
    exact length_filter_and_not _ _ ms

/-- Witness for C10 at a concrete two-contact sequence (one Saturday message,
one Monday message). -/
theorem weekend_weekday_partition_witness :
    (([⟨"A", "hi", 259200000⟩, ⟨"B", "yo", 432000000⟩] : List Message) ≠ []) ∧
      (weekendCountFor (contact1 [⟨"A", "hi", 259200000⟩, ⟨"B", "yo", 432000000⟩]) [⟨"A", "hi", 259200000⟩, ⟨"B", "yo", 432000000⟩]
          + weekdayCountFor (contact1 [⟨"A", "hi", 259200000⟩, ⟨"B", "yo", 432000000⟩]) [⟨"A", "hi", 259200000⟩, ⟨"B", "yo", 432000000⟩]
          = countFor (contact1 [⟨"A", "hi", 259200000⟩, ⟨"B", "yo", 432000000⟩]) [⟨"A", "hi", 259200000⟩, ⟨"B", "yo", 432000000⟩] ∧
        weekendCountFor (contact2 [⟨"A", "hi", 259200000⟩, ⟨"B", "yo", 432000000⟩]) [⟨"A", "hi", 259200000⟩, ⟨"B", "yo", 432000000⟩]
          + weekdayCountFor (contact2 [⟨"A", "hi", 259200000⟩, ⟨"B", "yo", 432000000⟩]) [⟨"A", "hi", 259200000⟩, ⟨"B", "yo", 432000000⟩]
          = countFor (contact2 [⟨"A", "hi", 259200000⟩, ⟨"B", "yo", 432000000⟩]) [⟨"A", "hi", 259200000⟩, ⟨"B", "yo", 432000000⟩]) :=
  ⟨by decide, weekend_weekday_partition _ (by decide)⟩
theorem parseLine_eq_none {l : List Char} : parseLine l = none ↔ matchWhatsApp l = none := by
  simp [parseLine]

/-- C6: the parser fails exactly on inputs in which no retained line matches
the record pattern, and then with `NoMessagesFound`; on every input with at
least one matching line it succeeds; every run is either that single error or
a success. -/
theorem parse_fails_iff_no_line_matches (s : String) :
    (parse s = .error .NoMessagesFound ↔ ∀ l ∈ messageLines s, matchWhatsApp l = none) ∧
      ((∃ msgs, parse s = .ok msgs) ↔ ∃ l ∈ messageLines s, (matchWhatsApp l).isSome) ∧
      (parse s = .error .NoMessagesFound ∨ ∃ msgs, parse s = .ok msgs) := by
  by_cases hm : (messageLines s).filterMap parseLine = []
  · have hall := List.filterMap_eq_nil_iff.mp hm
    have herr : parse s = .error .NoMessagesFound := by
      simp [parse, hm]
    refine ⟨⟨fun _ l hl => parseLine_eq_none.mp (hall l hl), fun _ => herr⟩, ?_, Or.inl herr⟩
    constructor
    · rintro ⟨msgs, hok⟩
      rw [herr] at hok
      exact absurd hok (by simp)
    · rintro ⟨l, hl, hsome⟩
      have := hall l hl
      rw [parseLine_eq_none.mp (hall l hl)] at hsome
      exact absurd hsome (by simp)
  · have hok : parse s = .ok ((messageLines s).filterMap parseLine) := by
      simp [parse, hm]
    have hex : ∃ l ∈ messageLines s, (matchWhatsApp l).isSome := by
      obtain ⟨r, hr⟩ := List.exists_mem_of_ne_nil _ hm
      obtain ⟨l, hl, hpl⟩ := List.mem_filterMap.mp hr
      refine ⟨l, hl, ?_⟩
      cases hmw : matchWhatsApp l with
      | none => rw [parseLine_eq_none.mpr hmw] at hpl; exact absurd hpl (by simp)
      | some g => simp
    refine ⟨⟨fun he => ?_, fun hall => ?_⟩, ⟨fun _ => hex, fun _ => ⟨_, hok⟩⟩, Or.inr ⟨_, hok⟩⟩
    · rw [hok] at he; exact absurd he (by simp)
    · exact absurd (List.filterMap_eq_nil_iff.mpr fun l hl => parseLine_eq_none.mpr (hall l hl)) hm

theorem startersFrom_eq (c : String) (l : List Message) (last : Int) :
    startersFrom c last l =
      ((l.zip (last :: l.map (·.timestamp))).filter fun p =>
          14400000 < p.1.timestamp - p.2 && p.1.contact == c).length := by
  induction l generalizing last with
  | nil => simp [startersFrom]
  | cons m rest ih =>
      simp only [startersFrom, List.map_cons, List.zip_cons_cons, List.filter_cons]
      rw [ih m.timestamp]
      by_cases hcond : (14400000 < m.timestamp - last && m.contact == c) = true
      · simp only [hcond, if_true, List.length_cons]
        omega
      · simp [hcond]

/-- C8 (amended): walking the chronologically sorted sequence, a message is
counted as a conversation starter for its sender exactly when the gap since
the immediately preceding message (any contact) exceeds 4 hours, where the
first message is compared against the synthetic epoch-zero previous time (so
it counts if and only if its timestamp exceeds 4 hours past the epoch, which
holds for every realistic transcript date). -/
theorem conversation_starters_characterization (c : String) (ms : List Message) :
    conversationStartersFor c ms =
      (((sortMsgs ms).zip ((0 : Int) :: (sortMsgs ms).map (·.timestamp))).filter fun p =>
          14400000 < p.1.timestamp - p.2 && p.1.contact == c).length :=
  startersFrom_eq c (sortMsgs ms) 0

/-- C8 counterexample: a sole message with timestamp at the epoch is NOT
counted as a conversation starter (the claim's "the very first message
always counts as a starter" would require the count 1). -/
theorem first_message_at_epoch_not_starter :
    conversationStartersFor "A" [⟨"A", "hi", 0⟩] = 0 ∧
      conversationStartersFor "A" [⟨"A", "hi", 0⟩] ≠ 1 := by
  constructor <;> decide
theorem redFlags_inner (ms : List Message) (cat : String) (kws : List String)
    (acc : List RedFlag) :
    kws.foldl
        (fun acc2 kw =>
          let count := keywordCount kw ms
          if 0 < count then
            acc2 ++ [{ category := cat, message := flagMsg kw count, severity := severityOf count }]
          else acc2)
        acc
      = acc ++ kws.filterMap
          (fun kw =>
            let count := keywordCount kw ms
            if 0 < count then
              some { category := cat, message := flagMsg kw count, severity := severityOf count }
            else none) := by
  induction kws generalizing acc with
  | nil => simp
  | cons kw rest ih =>
      simp only [List.foldl_cons, List.filterMap_cons]
      by_cases hc : 0 < keywordCount kw ms
      · simp only [hc, if_true, ih, List.append_assoc, List.singleton_append]
      · simp only [hc, if_false, ih]

theorem redFlags_outer (ms : List Message) (table : List (String × List String))
    (acc : List RedFlag) :
    table.foldl
        (fun acc ck =>
          ck.2.foldl
            (fun acc2 kw =>
              let count := keywordCount kw ms
              if 0 < count then
                acc2 ++ [{ category := ck.1, message := flagMsg kw count, severity := severityOf count }]
              else acc2)
            acc)
        acc
      = acc ++ (table.map fun ck =>
          ck.2.filterMap fun kw =>
            let count := keywordCount kw ms
            if 0 < count then
              some { category := ck.1, message := flagMsg kw count, severity := severityOf count }
            else none).flatten := by
  induction table generalizing acc with
  | nil => simp
  | cons ck rest ih =>
      simp only [List.foldl_cons, List.map_cons, List.flatten_cons]
      rw [redFlags_inner, ih, List.append_assoc]

/-- C5 (amended): the red-flag list contains, per (category, keyword) pair of
the table and in table order, exactly one entry when the number of messages
(over ALL messages, not per contact) whose lowercased text contains the
keyword is positive, with that count rendered in the entry and the severity
thresholds (`high` above 10, `medium` above 5, else `low`) applied to it. -/
theorem red_flags_eq_keyword_characterization (ms : List Message) :
    redFlags ms = specRedFlagList ms := by
  simp only [redFlags, specRedFlagList]
  rw [redFlags_outer]
  simp

/-- C5 counterexample: one message containing the substring "blocked" twice is
counted once (the code counts messages containing the keyword, not substring
occurrences, which here number 2), so the emitted entry reports 1. -/
theorem red_flag_counts_messages_not_occurrences :
    keywordCount "blocked" [⟨"A", "blocked blocked", 0⟩] = 1 ∧
      specOccurrenceCount "blocked" [⟨"A", "blocked blocked", 0⟩] = 2 ∧
      redFlags [⟨"A", "blocked blocked", 0⟩] =
        [⟨"blocking", "Mentioned \"block\" 1 times", "low"⟩,
         ⟨"blocking", "Mentioned \"blocked\" 1 times", "low"⟩] := by
  refine ⟨by decide, by decide, by decide⟩
/-- C4 (amended): for every record the parser produces, the date and time
tokens are combined into the timestamp by the host date parser, which reads
the slash-separated date in month-day-year order as written (so in "1/2/24"
the 1 is the month and the 2 is the day), with hour:minute[:second] and with
an am/pm marker applied to the hour when present. -/
theorem parse_combines_tokens_month_first (s : String) (msgs : List RawMsg) (r : RawMsg)
    (hp : parse s = .ok msgs) (hr : r ∈ msgs) :
    r.timestamp = jsDateTime r.date.data r.time.data ∧
      jsDateTime "1/2/24".data "10:00".data = some (civilMs 2024 1 2 10 0 0) ∧
      jsDateTime "1/2/24".data "10:00:30".data = some (civilMs 2024 1 2 10 0 30) ∧
      jsDateTime "1/2/24".data "1:05 pm".data = some (civilMs 2024 1 2 13 5 0) := by
  refine ⟨?_, by decide, by decide, by decide⟩
  simp only [parse] at hp
  split at hp
  · exact absurd hp (by simp)
  · have hmsgs : msgs = (messageLines s).filterMap parseLine := by
      injection hp with h
      exact h.symm
    subst hmsgs
    obtain ⟨l, _, hpl⟩ := List.mem_filterMap.mp hr
    cases hmw : matchWhatsApp l with
    | none => rw [parseLine_eq_none.mpr hmw] at hpl; exact absurd hpl (by simp)
    | some g =>
        obtain ⟨d, t, c, m⟩ := g
        simp only [parseLine, hmw] at hpl
        simp at hpl
        rw [← hpl]

/-- Witness for C4 at the Example-1 input and its first parsed record. -/
theorem parse_combines_tokens_month_first_witness :
    (parse c1Input = .ok [c1Raw1, c1Raw2] ∧ c1Raw1 ∈ [c1Raw1, c1Raw2]) ∧
      (c1Raw1.timestamp = jsDateTime c1Raw1.date.data c1Raw1.time.data ∧
        jsDateTime "1/2/24".data "10:00".data = some (civilMs 2024 1 2 10 0 0) ∧
        jsDateTime "1/2/24".data "10:00:30".data = some (civilMs 2024 1 2 10 0 30) ∧
        jsDateTime "1/2/24".data "1:05 pm".data = some (civilMs 2024 1 2 13 5 0)) :=
  ⟨⟨by rfl, by decide⟩,
   parse_combines_tokens_month_first c1Input [c1Raw1, c1Raw2] c1Raw1 (by rfl) (by decide)⟩

/-- C4 counterexample: for the matched line "1/2/24, 10:00 - Alice: hello"
the code's timestamp is January 2 (month-first), which differs from the
day-month-year reading (February 1) the claim asserts. -/
theorem date_order_not_day_month_counterexample :
    matchWhatsApp "1/2/24, 10:00 - Alice: hello".data
        = some ("1/2/24".data, "10:00".data, "Alice".data, "hello".data) ∧
      jsDateTime "1/2/24".data "10:00".data = some (civilMs 2024 1 2 10 0 0) ∧
      specDMYDateTime "1/2/24".data "10:00".data = some (civilMs 2024 2 1 10 0 0) ∧
      jsDateTime "1/2/24".data "10:00".data ≠ specDMYDateTime "1/2/24".data "10:00".data := by
  refine ⟨by decide, by decide, by decide, by decide⟩

/-- C3 (amended): on an empty per-contact subsequence the explicitly guarded
metrics degrade to their neutral defaults (energy level 0, average response
time 0, sentiment 50, interest level 0), while average message length and the
communication-style percentages, whose divisions are NOT guarded, evaluate to
NaN (modeled `none`) instead of 0. -/
theorem empty_subsequence_metric_defaults (oc : Option String) (ms : List Message)
    (h : msgsFor oc ms = []) :
    energyFor oc ms = 0 ∧ avgResponseTimeFor oc ms = 0 ∧ sentimentFor oc ms = 50 ∧
      avgMessageLengthFor oc ms = none ∧ commStyleFor oc ms = none ∧
      (ms ≠ [] → interestFor oc ms = 0) := by
  have hno : ∀ m ∈ ms, ¬((some m.contact == oc) = true) := by
    intro m hm
    have := List.filter_eq_nil_iff.mp h m hm
    simpa using this
  have hgaps : responseGapsFor oc ms = [] := by
    simp only [responseGapsFor]
    apply List.filterMap_eq_nil_iff.mpr
    intro pc hpc
    rcases pc with ⟨x, y⟩
    have hy : y ∈ (sortMsgs ms).tail := (List.of_mem_zip hpc).2
    have hym : y ∈ ms := mem_sortMsgs.mp ((List.tail_sublist (sortMsgs ms)).subset hy)
    have hneq : ¬(some y.contact = oc) := by
      have := hno y hym
      simpa using this
    simp only
    rw [if_neg]
    rintro ⟨-, h2, -⟩
    exact hneq h2
  refine ⟨?_, ?_, ?_, ?_, ?_, ?_⟩
  · simp [energyFor, h]
  · simp [avgResponseTimeFor, hgaps]
  · simp [sentimentFor, h, lexiconHits]
  · simp [avgMessageLengthFor, h]
  · simp [commStyleFor, h]
  · intro hne
    have hn : 0 < ms.length := List.length_pos.mpr hne
    have hzero : countFor oc ms = 0 := by simp [countFor, h]
    simp only [interestFor, hzero, jsRoundNat, Nat.mul_zero]
    exact Nat.div_eq_of_lt (by omega)

/-- Witness for C3 at a single-contact sequence, whose second-contact
subsequence is empty. -/
theorem empty_subsequence_metric_defaults_witness :
    (msgsFor (contact2 [⟨"A", "hi", 0⟩]) [⟨"A", "hi", 0⟩] = []) ∧
      (energyFor (contact2 [⟨"A", "hi", 0⟩]) [⟨"A", "hi", 0⟩] = 0 ∧
        avgResponseTimeFor (contact2 [⟨"A", "hi", 0⟩]) [⟨"A", "hi", 0⟩] = 0 ∧
        sentimentFor (contact2 [⟨"A", "hi", 0⟩]) [⟨"A", "hi", 0⟩] = 50 ∧
        avgMessageLengthFor (contact2 [⟨"A", "hi", 0⟩]) [⟨"A", "hi", 0⟩] = none ∧
        commStyleFor (contact2 [⟨"A", "hi", 0⟩]) [⟨"A", "hi", 0⟩] = none ∧
        (([⟨"A", "hi", 0⟩] : List Message) ≠ [] →
          interestFor (contact2 [⟨"A", "hi", 0⟩]) [⟨"A", "hi", 0⟩] = 0)) :=
  ⟨by decide, empty_subsequence_metric_defaults _ _ (by decide)⟩

/-- C3 counterexample: for a sequence with a single distinct contact the
second contact's subsequence is empty and the average-message-length metric
is NaN (`none`), not the claimed 0; likewise the communication-style
percentages. -/
theorem avg_length_undefined_on_empty_subsequence :
    msgsFor (contact2 [⟨"A", "hi", 0⟩]) [⟨"A", "hi", 0⟩] = [] ∧
      avgMessageLengthFor (contact2 [⟨"A", "hi", 0⟩]) [⟨"A", "hi", 0⟩] = none ∧
      avgMessageLengthFor (contact2 [⟨"A", "hi", 0⟩]) [⟨"A", "hi", 0⟩] ≠ some 0 ∧
      commStyleFor (contact2 [⟨"A", "hi", 0⟩]) [⟨"A", "hi", 0⟩] = none := by
  refine ⟨by decide, by decide, by decide, by decide⟩

/-- C1 counterexample: on the spec's Example-1 input the pipeline computes a
compatibility score of 75, not the claimed 100. -/
theorem example1_compatibility_not_100 :
    (parseMessages c1Input).map compatibilityScore = some 75 ∧
      (parseMessages c1Input).map compatibilityScore ≠ some 100 := by
  refine ⟨by decide, by decide⟩

/-- C1 (amended): the Example-1 input parses to exactly 2 messages, with
message counts 1 for Alice and 1 for Bob, interest levels 50 for each, and a
compatibility score of 75. -/
theorem example1_metrics :
    parseMessages c1Input = some c1Msgs ∧ c1Msgs.length = 2 ∧
      contact1 c1Msgs = some "Alice" ∧ contact2 c1Msgs = some "Bob" ∧
      countFor (contact1 c1Msgs) c1Msgs = 1 ∧ countFor (contact2 c1Msgs) c1Msgs = 1 ∧
      interestFor (contact1 c1Msgs) c1Msgs = 50 ∧ interestFor (contact2 c1Msgs) c1Msgs = 50 ∧
      compatibilityScore c1Msgs = 75 := by
  refine ⟨by decide, by decide, by decide, by decide, by decide, by decide, by decide, by decide, by decide⟩
